import Mathlib

/-!
Verification of the CineForge scene-timeline and frame-rendering engine
(`src/components/VideoComposer.tsx`, `src/components/AssetDropzone.tsx`).

The engine is embedded shallowly: the timeline builder and scene lookup of
`drawFrame` become pure Lean functions over integer millisecond timestamps,
the renderer becomes a function producing the list of drawing commands it
issues to the canvas (helper draw routines appear as single opaque commands
carrying their arguments), the capture loop becomes a function from a list
of callback wall-times to the list of clamped render times, and the
mime-type selection and dropzone handlers become small total functions.
-/

namespace CineForge

/-- The four scene kinds of the timeline (`kind: "intro" | "image" | "price" | "outro"`). -/
inductive SceneKind
  | intro
  | image
  | price
  | outro
deriving DecidableEq

/-- A scene of the timeline as built in `drawFrame` (lines 72-83):
kind, optional image index `idx?`, and the half-open span `[startMs, endMs)`. -/
structure Scene where
  kind : SceneKind
  idx? : Option Nat
  startMs : Int
  endMs : Int
deriving DecidableEq

/-- A decoded image bitmap: only its intrinsic dimensions matter to the model. -/
structure Bitmap where
  width : Int
  height : Int
deriving DecidableEq

/-- The aspect-ratio enum of the component props. -/
inductive Ratio
  | r16x9
  | r9x16
  | r1x1
deriving DecidableEq

/-- The visual-style enum of the component props. -/
inductive Style
  | cinematic
  | modern
  | minimal
deriving DecidableEq

/-- Constant `introMs = 1500` (VideoComposer line 31). -/
def introMs : Int := 1500

/-- Constant `perImageMs = 3200` (VideoComposer line 32). -/
def perImageMs : Int := 3200

/-- Constant `priceMs = 1800` (VideoComposer line 33). -/
def priceMs : Int := 1800

/-- Constant `outroMs = 800` (VideoComposer line 34). -/
def outroMs : Int := 800

/-- The `totalDurationMs` computation (VideoComposer lines 36-40): with
`n = max(bitmaps.length, assets.length)`, the duration is `introMs` when
`n = 0`, else `introMs + n * perImageMs + priceMs + outroMs`. -/
def totalDurationMs (bitmapCount assetCount : Nat) : Int :=
  let n := max bitmapCount assetCount
  if n = 0 then introMs
  else introMs + n * perImageMs + priceMs + outroMs

/-- The image scenes pushed by the `for` loop of `drawFrame` (lines 76-79):
starting at cursor `c` with index `i`, `k` consecutive scenes of
`perImageMs` each. -/
def imageScenesFrom (c : Int) (i : Nat) : Nat → List Scene
  | 0 => []
  | k + 1 =>
    { kind := .image, idx? := some i, startMs := c, endMs := c + perImageMs } ::
      imageScenesFrom (c + perImageMs) (i + 1) k

/-- The scene list built inside `drawFrame` (lines 72-83) from the decoded
bitmap count: one intro scene, then one image scene per bitmap, then one
price scene and one outro scene, always in that order (price and outro are
pushed unconditionally, also when the bitmap count is zero). -/
def buildScenes (bitmapCount : Nat) : List Scene :=
  let afterImages : Int := introMs + bitmapCount * perImageMs
  { kind := .intro, idx? := none, startMs := 0, endMs := introMs } ::
    imageScenesFrom introMs 0 bitmapCount ++
    [{ kind := .price, idx? := none, startMs := afterImages,
       endMs := afterImages + priceMs },
     { kind := .outro, idx? := none, startMs := afterImages + priceMs,
       endMs := afterImages + priceMs + outroMs }]

/-- The end of the interval the built scene list covers:
`introMs + N * perImageMs + priceMs + outroMs`, independent of whether the
duration formula collapsed to `introMs` at `N = 0`. -/
def coverageEnd (bitmapCount : Nat) : Int :=
  introMs + bitmapCount * perImageMs + priceMs + outroMs

/-- The membership test of the scene search `s => time >= s.start && time < s.end`
(VideoComposer line 85). -/
def inScene (t : Int) (s : Scene) : Bool :=
  decide (s.startMs ≤ t) && decide (t < s.endMs)

/-- The lookup `scenes.find(s => time >= s.start && time < s.end)` (line 85);
`none` models the non-null assertion failing (no scene contains the time). -/
def findScene (scenes : List Scene) (t : Int) : Option Scene :=
  scenes.find? (inScene t)

/-- The time clamp of `drawFrame` (line 84): `Math.min(tMs, totalDurationMs - 1)`.
There is no clamp from below. -/
def clampTime (total tMs : Int) : Int :=
  min tMs (total - 1)

/-- Whether a scene is an image scene. -/
def isImageScene (s : Scene) : Bool :=
  decide (s.kind = .image)

/-- Canvas pixel dimensions fixed by the aspect ratio (VideoComposer
lines 24-28): 16:9 gives 1280x720, 9:16 gives 1080x1920, else 1080x1080. -/
def dims : Ratio → Int × Int
  | .r16x9 => (1280, 720)
  | .r9x16 => (1080, 1920)
  | .r1x1 => (1080, 1080)

/-- One drawing command issued by `drawFrame` to the canvas. The helper draw
routines (`drawIntro`, `drawImageScene`, `drawPrice`, `drawVignette`,
`drawLetterbox`) appear as single commands carrying exactly the arguments the
code passes them; the inline outro fade and the `ctx.filter` assignments are
kept at the canvas-call level. -/
inductive Op
  | clearRect (x y w h : Int)
  | fillBlack (x y w h : Int)
  | setFilter (value : String)
  | setAlpha (a : Rat)
  | introDraw (bmp : Option Bitmap) (title subtitle : String) (prog : Rat) (style : Style)
  | imageDraw (bmp : Option Bitmap) (caption : Option String) (index : Nat)
      (prog : Rat) (style : Style)
  | priceDraw (price cta : String) (prog : Rat) (style : Style)
  | vignetteDraw (w h : Int)
  | letterboxDraw (w h : Int)
deriving DecidableEq

/-- Whether a command is an assignment to `ctx.filter`. -/
def Op.isSetFilterOp : Op → Bool
  | .setFilter _ => true
  | _ => false

/-- Whether a command is a letterbox-bar draw. -/
def Op.isLetterboxOp : Op → Bool
  | .letterboxDraw _ _ => true
  | _ => false

/-- Whether a command belongs to the post-processing pass: a vignette draw,
a letterbox draw, or a filter assignment other than the identity "none". -/
def Op.isPostProcOp : Op → Bool
  | .vignetteDraw _ _ => true
  | .letterboxDraw _ _ => true
  | .setFilter v => decide (v ≠ "none")
  | _ => false

/-- The inputs `drawFrame` reads: the decoded bitmaps and the component
props it closes over, plus the raw asset count that feeds `totalDurationMs`. -/
structure RenderInput where
  bitmaps : List Bitmap
  assetCount : Nat
  productName : String
  tagline : String
  features : List String
  cta : String
  price : String
  ratio : Ratio
  style : Style
deriving DecidableEq

/-- The CSS filter string `drawFrame` assigns at line 90: identity for
`minimal`, otherwise the color-grade string. -/
def gradeFilter (style : Style) : String :=
  if style = .minimal then "none" else "contrast(1.12) saturate(0.95) brightness(1.05)"

/-- The command a scene dispatches to (VideoComposer lines 92-104): intro,
image and price scenes call their helper with `bitmaps[0]` /
`bitmaps[idx]` / the text props and the scene progress; the outro fades to
black inline via global alpha. -/
def sceneOps (inp : RenderInput) (scene : Scene) (prog : Rat) (W H : Int) : List Op :=
  match scene.kind with
  | .intro => [.introDraw inp.bitmaps[0]? inp.productName inp.tagline prog inp.style]
  | .image =>
    let i := scene.idx?.getD 0
    [.imageDraw inp.bitmaps[i]? inp.features[i]? i prog inp.style]
  | .price => [.priceDraw inp.price inp.cta prog inp.style]
  | .outro => [.setAlpha prog, .fillBlack 0 0 W H, .setAlpha 1]

/-- The full command trace of `drawFrame` (lines 64-114): clear, black
background, find the scene at the clamped time (`none` when the lookup
fails, modelling the crash of the non-null assertion), set the color-grade
filter, dispatch on the scene kind, then vignette unless `minimal`,
letterbox bars when `cinematic`, and reset the filter. -/
def renderOps (inp : RenderInput) (tMs : Int) : Option (List Op) :=
  match findScene (buildScenes inp.bitmaps.length)
      (clampTime (totalDurationMs inp.bitmaps.length inp.assetCount) tMs) with
  | none => none
  | some scene =>
    some ([.clearRect 0 0 (dims inp.ratio).1 (dims inp.ratio).2,
           .fillBlack 0 0 (dims inp.ratio).1 (dims inp.ratio).2,
           .setFilter (gradeFilter inp.style)] ++
      sceneOps inp scene
        (((clampTime (totalDurationMs inp.bitmaps.length inp.assetCount) tMs -
            scene.startMs : Int) : Rat) /
          ((scene.endMs - scene.startMs : Int) : Rat))
        (dims inp.ratio).1 (dims inp.ratio).2 ++
      (if inp.style ≠ .minimal then
        [.vignetteDraw (dims inp.ratio).1 (dims inp.ratio).2] else []) ++
      (if inp.style = .cinematic then
        [.letterboxDraw (dims inp.ratio).1 (dims inp.ratio).2] else []) ++
      [.setFilter "none"])

/-- Modelled from the spec: the "unmodified per-scene draw" of section 8 —
clear, black background, and the scene dispatch, with no color-grade filter,
vignette or letterbox post-processing. -/
def sceneDrawOps (inp : RenderInput) (tMs : Int) : Option (List Op) :=
  match findScene (buildScenes inp.bitmaps.length)
      (clampTime (totalDurationMs inp.bitmaps.length inp.assetCount) tMs) with
  | none => none
  | some scene =>
    some ([.clearRect 0 0 (dims inp.ratio).1 (dims inp.ratio).2,
           .fillBlack 0 0 (dims inp.ratio).1 (dims inp.ratio).2] ++
      sceneOps inp scene
        (((clampTime (totalDurationMs inp.bitmaps.length inp.assetCount) tMs -
            scene.startMs : Int) : Rat) /
          ((scene.endMs - scene.startMs : Int) : Rat))
        (dims inp.ratio).1 (dims inp.ratio).2)

/-- Running a command trace against a drawing surface, given an
interpretation of single commands as surface transformations. -/
def applyOps {S : Type} (interp : Op → S → S) (ops : List Op) (s : S) : S :=
  ops.foldl (fun acc o => interp o acc) s

/-- A toy surface interpretation over a Boolean surface: the clear command
resets the surface, every other command flips it. -/
def flipInterp : Op → Bool → Bool
  | .clearRect _ _ _ _, _ => false
  | _, b => !b

/-- A concrete sample render input: one decoded 800x600 bitmap, one supplied
asset, the default copy of the page, 16:9 ratio, minimal style. -/
def sampleInput : RenderInput :=
  { bitmaps := [{ width := 800, height := 600 }], assetCount := 1,
    productName := "Aurora Lamp", tagline := "Light. Sculpted.",
    features := ["Premium"], cta := "Shop Now", price := "$129",
    ratio := .r16x9, style := .minimal }

/-- The ordered encoding preference list of `selectMimeType`
(VideoComposer lines 334-338). -/
def mimeCandidates : List String :=
  ["video/webm;codecs=vp9,opus", "video/webm;codecs=vp8,opus", "video/webm"]

/-- The `selectMimeType` function (VideoComposer lines 333-343): scan the candidates in
order, returning the first for which the host has a `MediaRecorder` and
reports the type supported; if none qualifies, return "video/webm". -/
def selectMimeType (hasMediaRecorder : Bool) (isTypeSupported : String → Bool) :
    String :=
  match mimeCandidates.find? (fun m => hasMediaRecorder && isTypeSupported m) with
  | some m => m
  | none => "video/webm"

/-- The frame-stepped capture loop (VideoComposer lines 313-323), as a
function from the elapsed wall times of the successive animation-frame
callbacks to the list of timestamps handed to `drawFrame`: every callback
renders at `Math.min(t, duration - 1)`, and the loop requests another frame
while `t < duration`, resolving (after rendering) at the first callback
with `t ≥ duration`. -/
def captureRenders (duration : Int) : List Int → List Int
  | [] => []
  | t :: rest =>
    min t (duration - 1) ::
      (if t < duration then captureRenders duration rest else [])

/-- Whether the capture loop resolves (after which `recorder.stop()` runs,
line 325) within the given callback schedule: some callback's elapsed time
reaches the duration. -/
def captureStops (duration : Int) (sched : List Int) : Bool :=
  sched.any (fun t => decide (duration ≤ t))

/-- The shared handler logic of `AssetDropzone` (`onInputChange` lines 20-23
and `onDrop` lines 25-30): from the event's file list, `onFiles` is invoked
only when the list is nonempty, with the whole list when `multiple` and with
`[files[0]]` otherwise; `none` means `onFiles` is not invoked. -/
def dropzoneEmit (multiple : Bool) (files : List String) : Option (List String) :=
  match files with
  | [] => none
  | f :: rest => some (if multiple then f :: rest else [f])

end CineForge

namespace CineForge

lemma countP_imageScenesFrom (x : Int) (k : Nat) : ∀ (c : Int) (i : Nat),
    (imageScenesFrom c i k).countP (inScene x) =
      if c ≤ x ∧ x < c + (k : Int) * perImageMs then 1 else 0 := by
  induction k with
  | zero =>
    intro c i
    simp only [imageScenesFrom, List.countP_nil, Nat.cast_zero, zero_mul, add_zero]
    split_ifs with h
    · omega
    · rfl
  | succ k ih =>
    intro c i
    simp only [imageScenesFrom, List.countP_cons, ih, inScene, Bool.and_eq_true,
      decide_eq_true_eq, perImageMs]
    push_cast
    split_ifs <;> omega

lemma countP_buildScenes (N : Nat) (x : Int) :
    (buildScenes N).countP (inScene x) =
      if 0 ≤ x ∧ x < coverageEnd N then 1 else 0 := by
  simp only [buildScenes, List.countP_cons, List.countP_append, countP_imageScenesFrom,
    List.countP_nil, inScene, Bool.and_eq_true, decide_eq_true_eq, coverageEnd,
    introMs, perImageMs, priceMs, outroMs]
  split_ifs <;> omega

lemma map_idx_imageScenesFrom (k : Nat) : ∀ (c : Int) (i : Nat),
    (imageScenesFrom c i k).map Scene.idx? = (List.range' i k).map some := by
  induction k with
  | zero => intro c i; simp [imageScenesFrom, List.range']
  | succ k ih => intro c i; simp [imageScenesFrom, List.range', ih]

lemma filter_image_imageScenesFrom (k : Nat) : ∀ (c : Int) (i : Nat),
    (imageScenesFrom c i k).filter isImageScene = imageScenesFrom c i k := by
  induction k with
  | zero => intro c i; simp [imageScenesFrom]
  | succ k ih => intro c i; simp [imageScenesFrom, ih, isImageScene]

lemma filter_image_buildScenes (N : Nat) :
    (buildScenes N).filter isImageScene = imageScenesFrom introMs 0 N := by
  simp [buildScenes, List.filter_append, filter_image_imageScenesFrom, isImageScene]

lemma introMs_le_totalDur (B A : Nat) : introMs ≤ totalDurationMs B A := by
  simp only [totalDurationMs, introMs, perImageMs, priceMs, outroMs]
  split_ifs <;> omega

lemma totalDur_le_coverage (B A : Nat) (h : A ≤ B) :
    totalDurationMs B A ≤ coverageEnd B := by
  simp only [totalDurationMs, coverageEnd, introMs, perImageMs, priceMs, outroMs,
    Nat.max_eq_left h]
  split_ifs <;> omega

lemma findScene_isSome_of_lt_coverage (N : Nat) (x : Int) (h0 : 0 ≤ x)
    (hx : x < coverageEnd N) : (findScene (buildScenes N) x).isSome = true := by
  rw [findScene, List.find?_isSome]
  have h := countP_buildScenes N x
  rw [if_pos ⟨h0, hx⟩] at h
  have hpos : 0 < (buildScenes N).countP (inScene x) := by omega
  exact List.countP_pos_iff.mp hpos

lemma findScene_clamp_isSome (B A : Nat) (t : Int) (h0 : 0 ≤ t) (hBA : A ≤ B) :
    (findScene (buildScenes B) (clampTime (totalDurationMs B A) t)).isSome = true := by
  apply findScene_isSome_of_lt_coverage
  · have := introMs_le_totalDur B A
    simp only [clampTime, introMs] at *
    omega
  · have h1 := totalDur_le_coverage B A hBA
    simp only [clampTime]
    omega

lemma sceneOps_not_postProc (inp : RenderInput) (scene : Scene) (prog : Rat)
    (W H : Int) : ∀ a ∈ sceneOps inp scene prog W H, a.isPostProcOp = false := by
  cases h : scene.kind <;> simp [sceneOps, h, Op.isPostProcOp]

lemma sceneOps_not_setFilter (inp : RenderInput) (scene : Scene) (prog : Rat)
    (W H : Int) : ∀ a ∈ sceneOps inp scene prog W H, a.isSetFilterOp = false := by
  cases h : scene.kind <;> simp [sceneOps, h, Op.isSetFilterOp]

lemma sceneOps_not_letterbox (inp : RenderInput) (scene : Scene) (prog : Rat)
    (W H : Int) : ∀ a ∈ sceneOps inp scene prog W H, a.isLetterboxOp = false := by
  cases h : scene.kind <;> simp [sceneOps, h, Op.isLetterboxOp]

lemma captureRenders_chain (d : Int) :
    ∀ sched : List Int, sched.Chain' (fun a b => a < b) →
      (captureRenders d sched).Chain' (fun a b => a ≤ b) := by
  intro sched
  induction sched with
  | nil => intro _; simp [captureRenders]
  | cons t rest ih =>
    intro hc
    rw [captureRenders]
    by_cases hlt : t < d
    · rw [if_pos hlt]
      cases rest with
      | nil => simp [captureRenders]
      | cons u rest' =>
        have hc' := List.chain'_cons.mp hc
        have ih' := ih hc'.2
        rw [captureRenders] at ih' ⊢
        rw [List.chain'_cons]
        exact ⟨min_le_min (le_of_lt hc'.1) le_rfl, ih'⟩
    · rw [if_neg hlt]
      simp

lemma captureRenders_last (d : Int) :
    ∀ sched : List Int, captureStops d sched = true →
      (captureRenders d sched).getLast? = some (d - 1) := by
  intro sched
  induction sched with
  | nil => intro h; simp [captureStops] at h
  | cons t rest ih =>
    intro h
    rw [captureRenders]
    by_cases hlt : t < d
    · rw [if_pos hlt]
      have hrest : captureStops d rest = true := by
        simp only [captureStops, List.any_cons, Bool.or_eq_true,
          decide_eq_true_eq] at h ⊢
        rcases h with h | h
        · omega
        · exact h
      have hlast := ih hrest
      have hne : captureRenders d rest ≠ [] := by
        cases rest with
        | nil => simp [captureStops] at hrest
        | cons u rest' => rw [captureRenders]; exact List.cons_ne_nil _ _
      obtain ⟨x, xs, hx⟩ := List.exists_cons_of_ne_nil hne
      rw [hx, List.getLast?_cons_cons, ← hx, hlast]
    · rw [if_neg hlt]
      have hmin : min t (d - 1) = d - 1 := min_eq_right (by omega)
      simp [hmin]

end CineForge

namespace CineForge

/-- C2 counterexample: at `N = 0` the scene list built by `drawFrame` is not
the single intro scene — it has three scenes (intro, price, outro), and the
point `2000`, which lies outside `[0, totalDurationMs) = [0, 1500)`, is still
covered by a scene, so the list does not partition `[0, totalDurationMs)`. -/
theorem scenes_partition_counterexample :
    buildScenes 0 ≠ [{ kind := .intro, idx? := none, startMs := 0, endMs := 1500 }] ∧
    (buildScenes 0).length = 3 ∧
    (buildScenes 0).countP (inScene 2000) = 1 ∧
    totalDurationMs 0 0 = 1500 := by
  decide

/-- C2 amended: for every `N`, the scene list partitions
`[0, introMs + N * perImageMs + priceMs + outroMs)` — every point of that
interval lies in exactly one scene and every point outside it in none — and
contains exactly `N` image scenes with `assetIndex` ascending `0..N-1`; the
covered interval equals `[0, totalDurationMs)` exactly when `N ≥ 1`, while
for `N = 0` the price and outro scenes start at or after `totalDurationMs`,
so after clamping only the intro scene is ever reachable. -/
theorem scenes_partition_amended (N : Nat) :
    (∀ x : Int, (buildScenes N).countP (inScene x) =
      if 0 ≤ x ∧ x < coverageEnd N then 1 else 0) ∧
    ((buildScenes N).filter isImageScene).map Scene.idx? = (List.range N).map some ∧
    (1 ≤ N → coverageEnd N = totalDurationMs N N) ∧
    (N = 0 → ∀ s ∈ buildScenes N, s.kind ≠ .intro → totalDurationMs N N ≤ s.startMs) := by
  refine ⟨countP_buildScenes N, ?_, ?_, ?_⟩
  · rw [filter_image_buildScenes, map_idx_imageScenesFrom, List.range_eq_range']
  · intro hN
    simp only [coverageEnd, totalDurationMs, introMs, perImageMs, priceMs, outroMs,
      Nat.max_self]
    rw [if_neg (by omega)]
  · intro hN s hs hk
    subst hN
    revert hk
    fin_cases hs <;> decide

/-- Witness for C2 amended, at `N = 2` (partition value at the point `5000`,
interval agreement) and at `N = 0` (the price scene starts at
`totalDurationMs`). -/
theorem scenes_partition_amended_witness :
    (buildScenes 2).countP (inScene 5000) = 1 ∧
    coverageEnd 2 = totalDurationMs 2 2 ∧
    totalDurationMs 0 0 ≤
      ({ kind := .price, idx? := none, startMs := 1500, endMs := 3300 } : Scene).startMs := by
  refine ⟨?_, (scenes_partition_amended 2).2.2.1 (by decide),
    (scenes_partition_amended 0).2.2.2 rfl
      { kind := .price, idx? := none, startMs := 1500, endMs := 3300 }
      (by decide) (by decide)⟩
  have h := (scenes_partition_amended 2).1 5000
  rw [h, if_pos (by decide)]

/-- C3 counterexample: with three decoded assets, the timestamp `-5` is not
clamped into `[0, totalDurationMs - 1]` — `Math.min` only clamps from above,
so the clamped time stays `-5` and no scene contains it. -/
theorem clamp_counterexample :
    clampTime (totalDurationMs 3 3) (-5) = -5 ∧
    clampTime (totalDurationMs 3 3) (-5) < 0 ∧
    findScene (buildScenes 3) (clampTime (totalDurationMs 3 3) (-5)) = none := by
  decide

/-- C3 amended: the renderer clamps only from above, via
`Math.min(tMs, totalDurationMs - 1)`; for every non-negative timestamp the
clamped time lies in `[0, totalDurationMs - 1]` and (when at least as many
bitmaps decoded as assets were supplied) the scene lookup at the clamped
time succeeds. Negative timestamps are not clamped to `0`. -/
theorem clamp_from_above_amended (B A : Nat) (t : Int) (h0 : 0 ≤ t) :
    0 ≤ clampTime (totalDurationMs B A) t ∧
    clampTime (totalDurationMs B A) t ≤ totalDurationMs B A - 1 ∧
    (A ≤ B → (findScene (buildScenes B) (clampTime (totalDurationMs B A) t)).isSome = true) := by
  refine ⟨?_, ?_, fun hBA => findScene_clamp_isSome B A t h0 hBA⟩
  · have := introMs_le_totalDur B A
    simp only [clampTime, introMs] at *
    omega
  · simp only [clampTime]
    omega

/-- Witness for C3 amended at `B = A = 1`, `t = 20000`. -/
theorem clamp_from_above_amended_witness :
    0 ≤ clampTime (totalDurationMs 1 1) 20000 ∧
    clampTime (totalDurationMs 1 1) 20000 ≤ totalDurationMs 1 1 - 1 ∧
    (findScene (buildScenes 1) (clampTime (totalDurationMs 1 1) 20000)).isSome = true := by
  have h := clamp_from_above_amended 1 1 20000 (by decide)
  exact ⟨h.1, h.2.1, h.2.2 (by decide)⟩

/-- C8: when the decoded bitmap count equals the asset count, the scene
lookup in `drawFrame` succeeds for every non-negative timestamp (the clamped
time always falls inside some scene); when fewer bitmaps decoded than assets
were supplied (here `0` bitmaps, `1` asset), the clamped time can exceed the
last scene's end and the lookup returns nothing, so the non-null assertion
is unsound. -/
theorem sceneLookup_soundness (B A : Nat) (t : Int) :
    (0 ≤ t → B = A →
      (findScene (buildScenes B) (clampTime (totalDurationMs B A) t)).isSome = true) ∧
    findScene (buildScenes 0) (clampTime (totalDurationMs 0 1) 7299) = none := by
  refine ⟨fun h0 hBA => findScene_clamp_isSome B A t h0 (le_of_eq hBA.symm), ?_⟩
  decide

/-- Witness for C8 at `B = A = 2`, `t = 500`. -/
theorem sceneLookup_soundness_witness :
    (findScene (buildScenes 2) (clampTime (totalDurationMs 2 2) 500)).isSome = true :=
  (sceneLookup_soundness 2 2 500).1 (by decide) rfl

/-- C4: the Frame Renderer is deterministic and pure apart from writing the
given surface. Its command trace is a function of the render inputs alone
(no randomness, wall clock, or hidden state appears in `renderOps`), and for
any interpretation of the commands under which the full-canvas clear erases
prior contents, running the trace from any two prior surface states yields
bit-identical results — so two calls with identical inputs produce identical
surface contents. -/
theorem renderOps_deterministic {S : Type} (interp : Op → S → S)
    (hclear : ∀ (x y w h : Int) (s s' : S),
      interp (Op.clearRect x y w h) s = interp (Op.clearRect x y w h) s')
    (inp : RenderInput) (tMs : Int) (ops : List Op)
    (hops : renderOps inp tMs = some ops) (s s' : S) :
    applyOps interp ops s = applyOps interp ops s' := by
  rw [renderOps] at hops
  cases hfind : findScene (buildScenes inp.bitmaps.length)
      (clampTime (totalDurationMs inp.bitmaps.length inp.assetCount) tMs) with
  | none => rw [hfind] at hops; exact absurd hops (by simp)
  | some scene =>
    rw [hfind] at hops
    have hops' := Option.some.inj hops
    subst hops'
    simp only [applyOps, List.cons_append, List.foldl_cons]
    rw [hclear 0 0 (dims inp.ratio).1 (dims inp.ratio).2 s s']

/-- Witness for C4: a concrete one-bitmap minimal-style input at time 0, a
Boolean surface, and an interpretation whose clear command resets the
surface; the final contents agree from both prior states. -/
theorem renderOps_deterministic_witness :
    applyOps flipInterp ((renderOps sampleInput 0).getD []) true =
    applyOps flipInterp ((renderOps sampleInput 0).getD []) false :=
  renderOps_deterministic flipInterp (fun _ _ _ _ _ _ => rfl)
    sampleInput 0 ((renderOps sampleInput 0).getD []) rfl true false

/-- C5: with style `minimal` the rendered trace contains no vignette draw, no
letterbox bars and no color-grade filter assignment — dropping the inert
`filter = "none"` assignments leaves exactly the unmodified per-scene draw —
and letterbox bars appear in the trace exactly when the style is
`cinematic`. -/
theorem minimal_no_postprocessing (inp : RenderInput) (tMs : Int) (ops : List Op)
    (hops : renderOps inp tMs = some ops) :
    (inp.style = .minimal →
      ops.filter Op.isPostProcOp = [] ∧
      some (ops.filter (fun o => !o.isSetFilterOp)) = sceneDrawOps inp tMs) ∧
    (ops.any Op.isLetterboxOp = true ↔ inp.style = .cinematic) := by
  rw [renderOps] at hops
  cases hfind : findScene (buildScenes inp.bitmaps.length)
      (clampTime (totalDurationMs inp.bitmaps.length inp.assetCount) tMs) with
  | none => rw [hfind] at hops; exact absurd hops (by simp)
  | some scene =>
    rw [hfind] at hops
    have hops' := Option.some.inj hops
    subst hops'
    constructor
    · intro hstyle
      rw [sceneDrawOps, hfind]
      simp only [hstyle, gradeFilter, List.filter_append, Op.isPostProcOp,
        Op.isSetFilterOp]
      simp [List.filter_append]
      constructor
      · exact ⟨⟨rfl, rfl, rfl⟩, sceneOps_not_postProc inp scene _ _ _, rfl⟩
      · intro a ha
        have h2 := sceneOps_not_setFilter inp scene _ _ _ a ha
        revert h2
        cases a <;> simp [Op.isSetFilterOp]
    · cases hstyle : inp.style <;>
        simp [hstyle, List.any_append, Op.isLetterboxOp] <;>
        (intro a ha
         have h2 := sceneOps_not_letterbox inp scene _ _ _ a ha
         revert h2
         cases a <;> simp [Op.isLetterboxOp])

/-- Witness for C5: the concrete minimal-style input of the C4 witness at
time 0; its trace has no post-processing command, reduces to the per-scene
draw, and contains no letterbox bars. -/
theorem minimal_no_postprocessing_witness :
    (((renderOps sampleInput 0).getD []).filter Op.isPostProcOp = [] ∧
     some (((renderOps sampleInput 0).getD []).filter (fun o => !o.isSetFilterOp)) =
       sceneDrawOps sampleInput 0) ∧
    ¬ (((renderOps sampleInput 0).getD []).any Op.isLetterboxOp = true) := by
  have h := minimal_no_postprocessing sampleInput 0 _ rfl
  refine ⟨h.1 rfl, fun hc => ?_⟩
  have hcin := h.2.mp hc
  exact absurd hcin (by decide)

/-- C6: `selectMimeType` scans the fixed ordered preference list and returns
the first entry the host reports supported; when no entry is supported it
returns "video/webm" unconditionally, which is also the final entry of the
list, so the selection itself never fails. -/
theorem selectMimeType_preference (hasMR : Bool) (sup : String → Bool) :
    ((hasMR && sup "video/webm;codecs=vp9,opus") = true →
      selectMimeType hasMR sup = "video/webm;codecs=vp9,opus") ∧
    ((hasMR && sup "video/webm;codecs=vp9,opus") = false →
      (hasMR && sup "video/webm;codecs=vp8,opus") = true →
      selectMimeType hasMR sup = "video/webm;codecs=vp8,opus") ∧
    ((hasMR && sup "video/webm;codecs=vp9,opus") = false →
      (hasMR && sup "video/webm;codecs=vp8,opus") = false →
      (hasMR && sup "video/webm") = true →
      selectMimeType hasMR sup = "video/webm") ∧
    ((hasMR && sup "video/webm;codecs=vp9,opus") = false →
      (hasMR && sup "video/webm;codecs=vp8,opus") = false →
      (hasMR && sup "video/webm") = false →
      selectMimeType hasMR sup = "video/webm") ∧
    mimeCandidates.getLast? = some "video/webm" := by
  refine ⟨?_, ?_, ?_, ?_, rfl⟩
  · intro h1
    simp [selectMimeType, mimeCandidates, List.find?, h1]
  · intro h1 h2
    simp [selectMimeType, mimeCandidates, List.find?, h1, h2]
  · intro h1 h2 h3
    simp [selectMimeType, mimeCandidates, List.find?, h1, h2, h3]
  · intro h1 h2 h3
    simp [selectMimeType, mimeCandidates, List.find?, h1, h2, h3]

/-- Witness for C6: a host with no `MediaRecorder` support at all still gets
the fallback "video/webm". -/
theorem selectMimeType_preference_witness :
    selectMimeType false (fun _ => false) = "video/webm" :=
  (selectMimeType_preference false (fun _ => false)).2.2.2.1 rfl rfl rfl

/-- C9: `selectMimeType` always returns one of exactly three fixed strings,
each beginning with "video/webm", so every capture's artifact is tagged with
a WebM container type no matter what the host supports. -/
theorem selectMimeType_always_webm (hasMR : Bool) (sup : String → Bool) :
    selectMimeType hasMR sup ∈ mimeCandidates ∧
    (selectMimeType hasMR sup).take 10 = "video/webm" := by
  have hm : selectMimeType hasMR sup ∈ mimeCandidates := by
    rw [selectMimeType]
    cases hfind : mimeCandidates.find? (fun m => hasMR && sup m) with
    | none => decide
    | some m => exact List.mem_of_find?_eq_some hfind
  refine ⟨hm, ?_⟩
  have h3 := hm
  simp only [mimeCandidates, List.mem_cons, List.not_mem_nil, or_false] at h3
  rcases h3 with h | h | h <;> rw [h] <;> decide

/-- C7 counterexample: a callback schedule whose second tick lands exactly at
`totalDurationMs - 1` makes the loop render `13699` twice — once for that
tick and once more on the terminating tick — so the rendered clamped
timestamps are not strictly increasing. -/
theorem captureLoop_counterexample :
    captureRenders 13700 [0, 13699, 13700] = [0, 13699, 13699] ∧
    ¬ List.Chain' (fun a b => a < b) (captureRenders 13700 [0, 13699, 13700]) ∧
    totalDurationMs 3 3 = 13700 := by
  refine ⟨by decide, ?_, by decide⟩
  intro h
  have : captureRenders 13700 [0, 13699, 13700] = [0, 13699, 13699] := by decide
  rw [this, List.chain'_cons, List.chain'_cons] at h
  omega

/-- C7 amended: for strictly increasing callback times, the clamped render
timestamps are nondecreasing (a duplicate of `totalDurationMs - 1` can occur
at the end), and whenever some callback's elapsed time reaches the duration
— which is when the loop resolves and the encoder is stopped — the final
rendered frame is the in-range time `totalDurationMs - 1`, rendered on that
terminating callback before the stop. -/
theorem captureLoop_amended (d : Int) (sched : List Int)
    (hmono : sched.Chain' (fun a b => a < b)) :
    (captureRenders d sched).Chain' (fun a b => a ≤ b) ∧
    (captureStops d sched = true →
      (captureRenders d sched).getLast? = some (d - 1)) :=
  ⟨captureRenders_chain d sched hmono, fun hs => captureRenders_last d sched hs⟩

/-- Witness for C7 amended, on the schedule of the counterexample. -/
theorem captureLoop_amended_witness :
    (captureRenders 13700 [0, 13699, 13700]).Chain' (fun a b => a ≤ b) ∧
    (captureRenders 13700 [0, 13699, 13700]).getLast? = some (13700 - 1) := by
  have hmono : List.Chain' (fun a b => a < b) ([0, 13699, 13700] : List Int) := by
    rw [List.chain'_cons, List.chain'_cons]
    refine ⟨by norm_num, by norm_num, List.chain'_singleton _⟩
  have h := captureLoop_amended 13700 [0, 13699, 13700] hmono
  exact ⟨h.1, h.2 (by decide)⟩

/-- C10: the dropzone handlers never invoke `onFiles` with an empty list —
nothing is emitted for an empty file list, any emitted list is nonempty, and
with `multiple = false` exactly the one-element list holding the first
selected file is emitted. -/
theorem dropzoneEmit_never_empty (m : Bool) (f : String) (rest l : List String) :
    dropzoneEmit m [] = none ∧
    (dropzoneEmit m (f :: rest) = some l → l ≠ []) ∧
    dropzoneEmit false (f :: rest) = some [f] := by
  refine ⟨rfl, ?_, rfl⟩
  intro h
  rw [dropzoneEmit] at h
  have h' := Option.some.inj h
  subst h'
  cases m <;> simp

/-- Witness for C10: two files with `multiple = true` emit the full list,
which is nonempty. -/
theorem dropzoneEmit_never_empty_witness :
    dropzoneEmit true ["a", "b"] = some ["a", "b"] ∧ (["a", "b"] : List String) ≠ [] :=
  ⟨rfl, (dropzoneEmit_never_empty true "a" ["b"] ["a", "b"]).2.1 rfl⟩

end CineForge

namespace CineForge

/-- C1: for every asset count `N` (with all `N` assets decoded), the engine's
total duration is `introMs = 1500` when `N = 0` and
`1500 + N * 3200 + 1800 + 800` otherwise; for `N = 3` it is `13700` and the
second image scene spans `[4700, 7900)`. -/
theorem totalDuration_formula_and_scenario (N : Nat) :
    totalDurationMs N N =
      (if N = 0 then 1500 else 1500 + (N : Int) * 3200 + 1800 + 800) ∧
    totalDurationMs 3 3 = 13700 ∧
    (buildScenes 3)[2]? =
      some { kind := .image, idx? := some 1, startMs := 4700, endMs := 7900 } := by
  refine ⟨?_, by decide, by decide⟩
  by_cases h : N = 0
  · subst h; decide
  · simp [totalDurationMs, introMs, perImageMs, priceMs, outroMs, h]

end CineForge
